import Mathlib

/-!
Shallow embedding of src/pdf.py (AzriellBautista/pdf-cli) and proofs about it.

The program is a CLI over PDF files with three subcommands: merge, split
(a stub) and compress.  The file-system and the PyPDF2 library are modelled
as explicit environments (an abstract view of os.path queries, and abstract
outcomes for PdfMerger.append / PdfReader / compress_content_streams /
PdfWriter.write); the repository's own logic — candidate resolution,
validation, sorting, the merge fold and the compress pipeline — is translated
function by function.
-/

namespace Pdf

/-! ## Python string primitives used by pdf.py

Python string operations are modelled on the underlying character list of a
Lean `String`.  Python compares strings lexicographically by code point;
`str.lower` lowercases (for the ASCII range relevant here this is
`Char.toLower`); `str.strip` drops whitespace from both ends; `str.endswith`
and `str.startswith` are exact (case-sensitive) affix tests.
-/

/-- Python s.lower(): lowercase every character. -/
def py_lower (s : String) : String :=
  ⟨s.data.map Char.toLower⟩

/-- Python s.strip(): drop whitespace from both ends. -/
def py_strip (s : String) : String :=
  ⟨((s.data.dropWhile Char.isWhitespace).reverse.dropWhile Char.isWhitespace).reverse⟩

/-- Python s.endswith(suffix): exact, case-sensitive suffix test. -/
def py_endswith (s suffix : String) : Bool :=
  suffix.data.isSuffixOf s.data

/-- Python s.startswith(pre): exact prefix test. -/
def py_startswith (s pre : String) : Bool :=
  pre.data.isPrefixOf s.data

/-- Python s[1:] for the strings used here: drop the first character. -/
def py_drop_first (s : String) : String :=
  ⟨s.data.drop 1⟩

/-- Python string comparison a <= b: lexicographic by code point. -/
def str_le : List Char → List Char → Bool
  | [], _ => true
  | _ :: _, [] => false
  | c :: cs, d :: ds =>
    if c.toNat < d.toNat then true
    else if d.toNat < c.toNat then false
    else str_le cs ds

theorem str_le_refl : ∀ a : List Char, str_le a a = true
  | [] => rfl
  | c :: cs => by simp [str_le, str_le_refl cs]

theorem char_toNat_inj {c d : Char} (h : c.toNat = d.toNat) : c = d := by
  have h2 := congrArg Char.ofNat h
  rwa [Char.ofNat_toNat, Char.ofNat_toNat] at h2

theorem str_le_total : ∀ a b : List Char, str_le a b = true ∨ str_le b a = true
  | [], _ => Or.inl rfl
  | _ :: _, [] => Or.inr rfl
  | c :: cs, d :: ds => by
    by_cases h1 : c.toNat < d.toNat
    · exact Or.inl (by simp [str_le, h1])
    · by_cases h2 : d.toNat < c.toNat
      · exact Or.inr (by simp [str_le, h2])
      · rcases str_le_total cs ds with h | h
        · exact Or.inl (by simp [str_le, h1, h2, h])
        · exact Or.inr (by simp [str_le, h1, h2, h])

theorem str_le_trans : ∀ {a b c : List Char},
    str_le a b = true → str_le b c = true → str_le a c = true
  | [], _, _, _, _ => rfl
  | x :: xs, [], _, h, _ => by simp [str_le] at h
  | x :: xs, y :: ys, [], _, h => by simp [str_le] at h
  | x :: xs, y :: ys, z :: zs, h1, h2 => by
    simp only [str_le] at h1 h2 ⊢
    by_cases hxy : x.toNat < y.toNat
    · by_cases hyz : y.toNat < z.toNat
      · simp [Nat.lt_trans hxy hyz]
      · by_cases hzy : z.toNat < y.toNat
        · simp [hyz, hzy] at h2
        · have hyz2 : y.toNat = z.toNat := Nat.le_antisymm (Nat.le_of_not_lt hzy) (Nat.le_of_not_lt hyz)
          simp [hyz2 ▸ hxy]
    · by_cases hyx : y.toNat < x.toNat
      · simp [hxy, hyx] at h1
      · have hxy2 : x.toNat = y.toNat := Nat.le_antisymm (Nat.le_of_not_lt hyx) (Nat.le_of_not_lt hxy)
        simp only [hxy, hyx, if_false, if_true, ite_self] at h1
        by_cases hyz : y.toNat < z.toNat
        · simp [hxy2 ▸ hyz]
        · by_cases hzy : z.toNat < y.toNat
          · simp [hyz, hzy] at h2
          · simp only [hyz, hzy, if_false, ite_self] at h2
            have h3 := str_le_trans (a := xs) (b := ys) (c := zs)
              (by simpa [hxy, hyx] using h1) (by simpa [hyz, hzy] using h2)
            simp [hxy2, hyz, hzy, h3]

theorem str_le_antisymm : ∀ {a b : List Char},
    str_le a b = true → str_le b a = true → a = b
  | [], [], _, _ => rfl
  | [], _ :: _, _, h => by simp [str_le] at h
  | _ :: _, [], h, _ => by simp [str_le] at h
  | x :: xs, y :: ys, h1, h2 => by
    simp only [str_le] at h1 h2
    by_cases hxy : x.toNat < y.toNat
    · simp [Nat.lt_asymm hxy, hxy] at h2
    · by_cases hyx : y.toNat < x.toNat
      · simp [hxy, hyx] at h1
      · have hx : x = y := char_toNat_inj
          (Nat.le_antisymm (Nat.le_of_not_lt hyx) (Nat.le_of_not_lt hxy))
        have hrest := str_le_antisymm (a := xs) (b := ys)
          (by simpa [hxy, hyx] using h1) (by simpa [hxy, hyx] using h2)
        rw [hx, hrest]

/-! ## File-system abstraction

An abstract, read-only view of the os.path queries made by pdf.py:
`os.path.isfile`, `os.path.getmtime`, `os.path.getsize`.
-/

/-- Abstract file system: which paths are existing regular files, and their
modification time and byte size. -/
structure FS where
  isFile : String → Bool
  getmtime : String → Nat
  getsize : String → Nat

/-! ## Validator: _check_pdfs (src/pdf.py lines 7-17) -/

/-- Embeds _check_pdfs: keep the paths that are existing regular files and
whose name ends with the case-sensitive suffix ".pdf". -/
def check_pdfs (fs : FS) (pdfs : List String) : List String :=
  pdfs.filter (fun pdf => fs.isFile pdf && py_endswith pdf ".pdf")

/-- C6: _check_pdfs returns exactly the subsequence of its input consisting of
the paths that exist as regular files and end with the case-sensitive suffix
".pdf", preserving input order; every other entry is dropped, and no error is
possible (the function is total). -/
theorem check_pdfs_spec (fs : FS) (l : List String) :
    (check_pdfs fs l).Sublist l ∧
    (∀ p, p ∈ check_pdfs fs l → fs.isFile p = true ∧ py_endswith p ".pdf" = true) ∧
    (∀ p, p ∈ l → fs.isFile p = true → py_endswith p ".pdf" = true →
      p ∈ check_pdfs fs l) := by
  refine ⟨List.filter_sublist l, ?_, ?_⟩
  · intro p hp
    have h := List.of_mem_filter hp
    simpa [Bool.and_eq_true] using h
  · intro p hp h1 h2
    exact List.mem_filter.mpr ⟨hp, by simp [h1, h2]⟩

/-- Concrete file system used to instantiate validator theorems: exactly
"a.pdf" and "b.PDF" exist as regular files. -/
def fsv : FS :=
  { isFile := fun p => p == "a.pdf" || p == "b.PDF"
    getmtime := fun _ => 0
    getsize := fun _ => 0 }

/-- Witness for C6 at a concrete input: "a.pdf" exists, ends with ".pdf" and
is kept by the validator. -/
theorem check_pdfs_spec_witness :
    "a.pdf" ∈ check_pdfs fsv ["a.pdf", "b.PDF", "gone.pdf"] :=
  (check_pdfs_spec fsv ["a.pdf", "b.PDF", "gone.pdf"]).2.2 "a.pdf"
    (by decide) (by decide) (by decide)

/-- C10: the validator is idempotent: a second pass over its own output
filters nothing. -/
theorem check_pdfs_idempotent (fs : FS) (l : List String) :
    check_pdfs fs (check_pdfs fs l) = check_pdfs fs l := by
  simp [check_pdfs, List.filter_filter]

/-! ## Sorter: _sort_pdfs (src/pdf.py lines 60-99)

Python's list.sort(key=k, reverse=r) is a stable sort; with reverse=True the
comparisons are reversed but elements with equal keys still keep their
original relative order.  Any stable sort realises these semantics; the
embedding uses insertion sort.
-/

/-- Python list.sort given the boolean comparison induced by the key function:
stable; with rev=true the comparison is flipped (ties still keep their
original relative order). -/
def pySort {α : Type} (le : α → α → Bool) (rev : Bool) (l : List α) : List α :=
  if rev then List.insertionSort (fun a b => le b a = true) l
  else List.insertionSort (fun a b => le a b = true) l

/-- Comparison induced by the sort key for option name: key(name) = name.lower(),
keys compared as Python strings. -/
def name_le (a b : String) : Bool :=
  str_le (py_lower a).data (py_lower b).data

/-- Embeds _sort_pdfs: optional key name / date / size, a leading ^ gives
descending order, an absent option (or an unrecognised key) returns the list
unchanged. -/
def sort_pdfs (fs : FS) (files : List String) (sort_option : Option String) : List String :=
  match sort_option with
  | none => files
  | some opt0 =>
    let rev := py_startswith opt0 "^"
    let opt := if rev then py_drop_first opt0 else opt0
    if opt = "name" then pySort name_le rev files
    else if opt = "date" then pySort (fun a b => decide (fs.getmtime a ≤ fs.getmtime b)) rev files
    else if opt = "size" then pySort (fun a b => decide (fs.getsize a ≤ fs.getsize b)) rev files
    else files

theorem pySort_perm {α : Type} (le : α → α → Bool) (rev : Bool) (l : List α) :
    (pySort le rev l).Perm l := by
  cases rev
  · exact List.perm_insertionSort _ l
  · exact List.perm_insertionSort _ l

/-- Every branch of _sort_pdfs returns a permutation of its input. -/
theorem sort_pdfs_perm (fs : FS) (files : List String) (sort_option : Option String) :
    (sort_pdfs fs files sort_option).Perm files := by
  match sort_option with
  | none => exact List.Perm.refl files
  | some opt0 =>
    simp only [sort_pdfs]
    repeat' split
    all_goals first
      | exact pySort_perm _ _ _
      | exact List.Perm.refl files

/-- Sorted lists that are permutations of each other and whose elements are
pairwise antisymmetric are equal. -/
theorem eq_of_perm_of_pairwise {α : Type} {r : α → α → Prop} {l₁ l₂ : List α}
    (hp : l₁.Perm l₂) (hs₁ : l₁.Pairwise r) (hs₂ : l₂.Pairwise r)
    (hanti : ∀ a, a ∈ l₁ → ∀ b, b ∈ l₁ → r a b → r b a → a = b) : l₁ = l₂ := by
  induction l₁ generalizing l₂ with
  | nil => exact hp.nil_eq
  | cons a t ih =>
    cases l₂ with
    | nil => exact hp.eq_nil
    | cons b t₂ =>
      have hab : a = b := by
        by_cases h : a = b
        · exact h
        · have hbl1 : b ∈ a :: t := hp.mem_iff.mpr (List.mem_cons_self b t₂)
          have hal2 : a ∈ b :: t₂ := hp.mem_iff.mp (List.mem_cons_self a t)
          have hbt : b ∈ t := by
            cases List.mem_cons.mp hbl1 with
            | inl h2 => exact absurd h2.symm h
            | inr h2 => exact h2
          have hat : a ∈ t₂ := by
            cases List.mem_cons.mp hal2 with
            | inl h2 => exact absurd h2 h
            | inr h2 => exact h2
          have hrab : r a b := (List.pairwise_cons.mp hs₁).1 b hbt
          have hrba : r b a := (List.pairwise_cons.mp hs₂).1 a hat
          exact hanti a (List.mem_cons_self a t) b hbl1 hrab hrba
      subst hab
      have htt : t.Perm t₂ := hp.cons_inv
      have ht := ih htt (List.pairwise_cons.mp hs₁).2 (List.pairwise_cons.mp hs₂).2
        (fun x hx y hy => hanti x (List.mem_cons_of_mem a hx) y (List.mem_cons_of_mem a hy))
      rw [ht]

/-- Stability of insertion sort on key classes: filtering the sorted list by a
predicate under which any two satisfying elements compare true both ways gives
the same list as filtering the input. -/
theorem insertionSort_filter_eq {α : Type} (r : α → α → Prop) [DecidableRel r]
    (p : α → Bool) (l : List α) (hp : ∀ a b, p a = true → p b = true → r a b) :
    (List.insertionSort r l).filter p = l.filter p := by
  have hpair : (l.filter p).Pairwise r :=
    List.pairwise_of_forall_mem_list
      (fun a ha b hb => hp a b (List.of_mem_filter ha) (List.of_mem_filter hb))
  have hsub : List.Sublist (l.filter p) (List.insertionSort r l) :=
    List.sublist_insertionSort hpair (List.filter_sublist l)
  have hsub2 : List.Sublist ((l.filter p).filter p) ((List.insertionSort r l).filter p) :=
    hsub.filter p
  have hself : (l.filter p).filter p = l.filter p := by
    simp [List.filter_filter]
  rw [hself] at hsub2
  have hlen : ((List.insertionSort r l).filter p).length = (l.filter p).length :=
    ((List.perm_insertionSort r l).filter p).length_eq
  exact (hsub2.eq_of_length hlen.symm).symm

/-- C7: sorting with key name orders by case-insensitive lexicographic
comparison (Python string order on the lowercased full path) and is stable
(paths with equal lowercased names keep their relative order); on a list whose
lowercased names are pairwise distinct, ^name yields the exact reverse of the
name ordering; with the sort option absent the list is returned unchanged. -/
theorem sort_pdfs_name_spec (fs : FS) (l : List String) :
    (sort_pdfs fs l (some "name")).Pairwise (fun a b => name_le a b = true) ∧
    (sort_pdfs fs l (some "name")).Perm l ∧
    (∀ key : String,
      (sort_pdfs fs l (some "name")).filter (fun x => decide (py_lower x = key)) =
        l.filter (fun x => decide (py_lower x = key))) ∧
    ((l.map py_lower).Nodup →
      sort_pdfs fs l (some "^name") = (sort_pdfs fs l (some "name")).reverse) ∧
    sort_pdfs fs l none = l := by
  haveI hTa : IsTotal String (fun a b => name_le a b = true) :=
    ⟨fun a b => str_le_total _ _⟩
  haveI hTr : IsTrans String (fun a b => name_le a b = true) :=
    ⟨fun a b c h1 h2 => str_le_trans h1 h2⟩
  haveI hTa2 : IsTotal String (fun a b => name_le b a = true) :=
    ⟨fun a b => str_le_total _ _⟩
  haveI hTr2 : IsTrans String (fun a b => name_le b a = true) :=
    ⟨fun a b c h1 h2 => str_le_trans h2 h1⟩
  refine ⟨?_, ?_, ?_, ?_, rfl⟩
  · exact List.sorted_insertionSort _ l
  · exact List.perm_insertionSort _ l
  · intro key
    refine insertionSort_filter_eq (fun a b => name_le a b = true)
      (fun x => decide (py_lower x = key)) l ?_
    intro a b ha hb
    have ha2 : py_lower a = key := of_decide_eq_true ha
    have hb2 : py_lower b = key := of_decide_eq_true hb
    show name_le a b = true
    unfold name_le
    rw [ha2, hb2]
    exact str_le_refl _
  · intro hnd
    have hdesc : sort_pdfs fs l (some "^name") =
        List.insertionSort (fun a b => name_le b a = true) l := rfl
    have hasc : sort_pdfs fs l (some "name") =
        List.insertionSort (fun a b => name_le a b = true) l := rfl
    rw [hdesc, hasc]
    apply eq_of_perm_of_pairwise (r := fun a b => name_le b a = true)
    · exact (List.perm_insertionSort _ l).trans
        ((List.perm_insertionSort _ l).symm.trans (List.reverse_perm _).symm)
    · exact List.sorted_insertionSort _ l
    · exact List.pairwise_reverse.mpr (List.sorted_insertionSort _ l)
    · intro a ha b hb h1 h2
      have hal : a ∈ l := (List.perm_insertionSort _ l).mem_iff.mp ha
      have hbl : b ∈ l := (List.perm_insertionSort _ l).mem_iff.mp hb
      have hdata : (py_lower a).data = (py_lower b).data := str_le_antisymm h2 h1
      have hlow : py_lower a = py_lower b := congrArg String.mk hdata
      exact List.inj_on_of_nodup_map hnd hal hbl hlow

/-- Witness for C7 at a concrete input with distinct lowercased names:
^name gives exactly the reverse of the name ordering. -/
theorem sort_pdfs_name_spec_witness :
    sort_pdfs fsv ["B.pdf", "a.pdf"] (some "^name") =
      (sort_pdfs fsv ["B.pdf", "a.pdf"] (some "name")).reverse :=
  (sort_pdfs_name_spec fsv ["B.pdf", "a.pdf"]).2.2.2.1 (by decide)

/-! ## Merge command pipeline order (src/pdf.py lines 185-197)

The merge command body runs, in this order: validation (_check_pdfs), the
numbered preview (_display_pdfs), then — only if --sort was given — the sort
(_sort_pdfs).  The trace below records the list passed to _display_pdfs and
the list finally handed to _merge_pdfs.
-/

/-- Observable trace of the merge command between input resolution and the
call to _merge_pdfs: the list printed as numbered preview, and the list that
will be merged. -/
structure MergeCmdTrace where
  displayed : List String
  merge_order : List String
  deriving DecidableEq

/-- Embeds src/pdf.py lines 185-197: pdfs = _check_pdfs(pdfs);
_display_pdfs(pdfs); if sort: pdfs = _sort_pdfs(pdfs, sort). -/
def merge_command_trace (fs : FS) (sort : Option String) (pdfs0 : List String) :
    MergeCmdTrace :=
  let pdfs1 := check_pdfs fs pdfs0
  let pdfs2 :=
    match sort with
    | some s => sort_pdfs fs pdfs1 (some s)
    | none => pdfs1
  { displayed := pdfs1, merge_order := pdfs2 }

/-- Concrete file system for the preview counterexample: "a.pdf" and "b.pdf"
exist as regular files. -/
def fsp : FS :=
  { isFile := fun p => p == "a.pdf" || p == "b.pdf"
    getmtime := fun _ => 0
    getsize := fun _ => 0 }

/-- Counterexample to C4: with --sort name and candidates ["b.pdf", "a.pdf"],
the numbered preview shows ["b.pdf", "a.pdf"] (discovery order) while the
files are merged in sorted order ["a.pdf", "b.pdf"]: the preview is printed
before the sort is applied, not after. -/
theorem merge_preview_counterexample :
    (merge_command_trace fsp (some "name") ["b.pdf", "a.pdf"]).displayed ≠
      sort_pdfs fsp (check_pdfs fsp ["b.pdf", "a.pdf"]) (some "name") ∧
    (merge_command_trace fsp (some "name") ["b.pdf", "a.pdf"]).merge_order =
      sort_pdfs fsp (check_pdfs fsp ["b.pdf", "a.pdf"]) (some "name") := by
  constructor
  · decide
  · decide

/-- C4 amended: the numbered preview is printed before the sort is applied: it
shows the validated candidates in discovery order, while the order actually
merged is the sorted list — a permutation of the preview, but not necessarily
equal to it. -/
theorem merge_preview_before_sort (fs : FS) (sort : Option String) (l : List String) :
    (merge_command_trace fs sort l).displayed = check_pdfs fs l ∧
    (merge_command_trace fs sort l).merge_order = sort_pdfs fs (check_pdfs fs l) sort ∧
    (merge_command_trace fs sort l).merge_order.Perm
      (merge_command_trace fs sort l).displayed := by
  refine ⟨rfl, ?_, ?_⟩
  · cases sort <;> rfl
  · cases sort with
    | none => exact List.Perm.refl _
    | some s =>
      show (sort_pdfs fs (check_pdfs fs l) (some s)).Perm (check_pdfs fs l)
      exact sort_pdfs_perm fs (check_pdfs fs l) (some s)

/-! ## Merger: _merge_pdfs (src/pdf.py lines 29-58)

PdfMerger.append on one file either succeeds — appending that file's pages to
the accumulated document and letting merged_count be incremented — or raises
(FileNotFoundError or any other exception), in which case the file is skipped
with a warning and the loop continues.  After the loop the document is
written to the output file only if merger.pages is non-empty.
-/

/-- Outcome of PdfMerger.append on one file: success contributing a number of
pages, a FileNotFoundError, or any other exception. -/
inductive AppendOutcome where
  | ok (pages : Nat)
  | notFound
  | err
  deriving DecidableEq

/-- Loop state of _merge_pdfs: the merged_count counter, the accumulated
merger.pages (as a page count), and the files appended / skipped so far. -/
structure MergeState where
  merged_count : Nat
  pages : Nat
  appended : List String
  skipped : List String
  deriving DecidableEq

/-- Result of _merge_pdfs: the returned pair (output filename, merged count)
plus the observable side effects — appended and skipped (warned-about) files,
the accumulated page count, and whether the output file was written. -/
structure MergeResult where
  output_file : String
  merged_count : Nat
  pages : Nat
  appended : List String
  skipped : List String
  written : Bool
  deriving DecidableEq

/-- Body of the append loop of _merge_pdfs for one file. -/
def merge_step (append : String → AppendOutcome) (s : MergeState) (file : String) :
    MergeState :=
  match append file with
  | .ok k =>
    { s with
      merged_count := s.merged_count + 1
      pages := s.pages + k
      appended := s.appended ++ [file] }
  | .notFound => { s with skipped := s.skipped ++ [file] }
  | .err => { s with skipped := s.skipped ++ [file] }

/-- Embeds _merge_pdfs: fold the append loop over the files, then write the
output file iff merger.pages is non-empty, and return (output_file,
merged_count). -/
def merge_pdfs (append : String → AppendOutcome) (files : List String)
    (output_file : String) : MergeResult :=
  let s := files.foldl (merge_step append) ⟨0, 0, [], []⟩
  { output_file := output_file, merged_count := s.merged_count, pages := s.pages,
    appended := s.appended, skipped := s.skipped, written := s.pages != 0 }

/-- Whether PdfMerger.append succeeds on a file. -/
def append_ok (append : String → AppendOutcome) (f : String) : Bool :=
  match append f with
  | .ok _ => true
  | _ => false

/-- The number of pages a file contributes to the accumulated document. -/
def file_pages (append : String → AppendOutcome) (f : String) : Nat :=
  match append f with
  | .ok k => k
  | _ => 0

theorem merge_foldl_count (append : String → AppendOutcome) :
    ∀ (files : List String) (s : MergeState),
      (files.foldl (merge_step append) s).merged_count
        = s.merged_count + (files.filter (append_ok append)).length
  | [], s => by simp
  | f :: fs, s => by
    cases h : append f with
    | ok k =>
      simp [List.foldl_cons, merge_step, h, append_ok, List.filter_cons,
        merge_foldl_count append fs]
      omega
    | notFound =>
      simp [List.foldl_cons, merge_step, h, append_ok, List.filter_cons,
        merge_foldl_count append fs]
    | err =>
      simp [List.foldl_cons, merge_step, h, append_ok, List.filter_cons,
        merge_foldl_count append fs]

theorem merge_foldl_pages (append : String → AppendOutcome) :
    ∀ (files : List String) (s : MergeState),
      (files.foldl (merge_step append) s).pages
        = s.pages + (files.map (file_pages append)).sum
  | [], s => by simp
  | f :: fs, s => by
    cases h : append f with
    | ok k =>
      simp [List.foldl_cons, merge_step, h, file_pages, merge_foldl_pages append fs]
      omega
    | notFound =>
      simp [List.foldl_cons, merge_step, h, file_pages, merge_foldl_pages append fs]
    | err =>
      simp [List.foldl_cons, merge_step, h, file_pages, merge_foldl_pages append fs]

theorem merge_foldl_appended (append : String → AppendOutcome) :
    ∀ (files : List String) (s : MergeState),
      (files.foldl (merge_step append) s).appended
        = s.appended ++ files.filter (append_ok append)
  | [], s => by simp
  | f :: fs, s => by
    cases h : append f with
    | ok k =>
      simp [List.foldl_cons, merge_step, h, append_ok, List.filter_cons,
        merge_foldl_appended append fs]
    | notFound =>
      simp [List.foldl_cons, merge_step, h, append_ok, List.filter_cons,
        merge_foldl_appended append fs]
    | err =>
      simp [List.foldl_cons, merge_step, h, append_ok, List.filter_cons,
        merge_foldl_appended append fs]

theorem merge_foldl_skipped (append : String → AppendOutcome) :
    ∀ (files : List String) (s : MergeState),
      (files.foldl (merge_step append) s).skipped
        = s.skipped ++ files.filter (fun f => !(append_ok append f))
  | [], s => by simp
  | f :: fs, s => by
    cases h : append f with
    | ok k =>
      simp [List.foldl_cons, merge_step, h, append_ok, List.filter_cons,
        merge_foldl_skipped append fs]
    | notFound =>
      simp [List.foldl_cons, merge_step, h, append_ok, List.filter_cons,
        merge_foldl_skipped append fs]
    | err =>
      simp [List.foldl_cons, merge_step, h, append_ok, List.filter_cons,
        merge_foldl_skipped append fs]

theorem merge_pdfs_count_eq (append : String → AppendOutcome) (files : List String)
    (output_file : String) :
    (merge_pdfs append files output_file).merged_count
      = (files.filter (append_ok append)).length := by
  show (files.foldl (merge_step append) ⟨0, 0, [], []⟩).merged_count = _
  rw [merge_foldl_count]
  simp

theorem merge_pdfs_pages_eq (append : String → AppendOutcome) (files : List String)
    (output_file : String) :
    (merge_pdfs append files output_file).pages
      = (files.map (file_pages append)).sum := by
  show (files.foldl (merge_step append) ⟨0, 0, [], []⟩).pages = _
  rw [merge_foldl_pages]
  simp

theorem merge_pdfs_appended_eq (append : String → AppendOutcome) (files : List String)
    (output_file : String) :
    (merge_pdfs append files output_file).appended
      = files.filter (append_ok append) := by
  show (files.foldl (merge_step append) ⟨0, 0, [], []⟩).appended = _
  rw [merge_foldl_appended]
  rfl

theorem merge_pdfs_skipped_eq (append : String → AppendOutcome) (files : List String)
    (output_file : String) :
    (merge_pdfs append files output_file).skipped
      = files.filter (fun f => !(append_ok append f)) := by
  show (files.foldl (merge_step append) ⟨0, 0, [], []⟩).skipped = _
  rw [merge_foldl_skipped]
  rfl

theorem merge_pdfs_written_eq (append : String → AppendOutcome) (files : List String)
    (output_file : String) :
    (merge_pdfs append files output_file).written
      = ((merge_pdfs append files output_file).pages != 0) := rfl

/-- C9: _merge_pdfs returns the output filename it was given, unchanged, and a
merged count between 0 and the number of input files. -/
theorem merge_pdfs_output_and_count (append : String → AppendOutcome)
    (files : List String) (output_file : String) :
    (merge_pdfs append files output_file).output_file = output_file ∧
    0 ≤ (merge_pdfs append files output_file).merged_count ∧
    (merge_pdfs append files output_file).merged_count ≤ files.length := by
  refine ⟨rfl, Nat.zero_le _, ?_⟩
  rw [merge_pdfs_count_eq]
  exact List.length_filter_le _ files

/-- Append environment in which every file appends successfully contributing
zero pages (PyPDF2 appends a zero-page PDF without error and without adding
any page). -/
def append_zero : String → AppendOutcome := fun _ => .ok 0

/-- Counterexample to C2: one file appends successfully but contributes no
pages, so the returned merged_count is 1 while merger.pages stays empty and
the output file is not written — "output written iff merged count non-zero"
fails in the if direction. -/
theorem merge_written_iff_count_counterexample :
    (merge_pdfs append_zero ["a.pdf"] "merged.pdf").merged_count = 1 ∧
    (merge_pdfs append_zero ["a.pdf"] "merged.pdf").written = false := by
  exact ⟨rfl, rfl⟩

theorem nat_sum_ne_zero : ∀ {l : List Nat}, l.sum ≠ 0 → ∃ x ∈ l, x ≠ 0
  | [], h => absurd rfl h
  | a :: t, h => by
    by_cases ha : a = 0
    · subst ha
      simp only [List.sum_cons, Nat.zero_add] at h
      obtain ⟨x, hx, hxne⟩ := nat_sum_ne_zero h
      exact ⟨x, List.mem_cons_of_mem _ hx, hxne⟩
    · exact ⟨a, List.mem_cons_self _ _, ha⟩

/-- C2 amended: _merge_pdfs writes the output file iff at least one page was
appended (merger.pages non-empty); a written output implies a non-zero merged
count — so merged_count = 0 implies no output file is written — but a
non-zero merged count alone does not imply the output is written (a
successfully appended zero-page file raises the count without contributing
pages). -/
theorem merge_pdfs_written_iff_pages (append : String → AppendOutcome)
    (files : List String) (output_file : String) :
    ((merge_pdfs append files output_file).written = true ↔
      (merge_pdfs append files output_file).pages ≠ 0) ∧
    ((merge_pdfs append files output_file).written = true →
      (merge_pdfs append files output_file).merged_count ≠ 0) := by
  have hiff : (merge_pdfs append files output_file).written = true ↔
      (merge_pdfs append files output_file).pages ≠ 0 := by
    rw [merge_pdfs_written_eq]
    exact bne_iff_ne
  refine ⟨hiff, ?_⟩
  intro hw
  have hpages := hiff.mp hw
  rw [merge_pdfs_pages_eq] at hpages
  rw [merge_pdfs_count_eq]
  obtain ⟨x, hx, hxne⟩ := nat_sum_ne_zero hpages
  obtain ⟨f, hf, hfx⟩ := List.mem_map.mp hx
  have hok : append_ok append f = true := by
    rw [← hfx] at hxne
    unfold file_pages at hxne
    unfold append_ok
    cases h2 : append f
    · rfl
    · rw [h2] at hxne; simp at hxne
    · rw [h2] at hxne; simp at hxne
  have hmem := List.mem_filter.mpr ⟨hf, hok⟩
  intro hlen
  rw [List.length_eq_zero] at hlen
  rw [hlen] at hmem
  exact absurd hmem (List.not_mem_nil f)

/-- Witness for the amended C2 at a concrete input: one file contributing two
pages makes written true and hence the merged count non-zero. -/
theorem merge_pdfs_written_iff_pages_witness :
    (merge_pdfs (fun _ => .ok 2) ["a.pdf"] "out.pdf").merged_count ≠ 0 :=
  (merge_pdfs_written_iff_pages (fun _ => .ok 2) ["a.pdf"] "out.pdf").2 rfl

/-- Append environment for the C5 counterexample: missing.pdf raises
FileNotFoundError, every other file appends successfully contributing zero
pages. -/
def append_c5 : String → AppendOutcome :=
  fun f => if f = "missing.pdf" then .notFound else .ok 0

/-- Counterexample to C5 as stated: with N = 2 files of which exactly one
fails at append time and the other appends successfully (a zero-page PDF, so
it contributes no pages), the returned count is N − 1 = 1 and the failing
file is warned about and skipped, but no output file is written. -/
theorem merge_skip_one_counterexample :
    (merge_pdfs append_c5 ["missing.pdf", "a.pdf"] "out.pdf").merged_count = 1 ∧
    (merge_pdfs append_c5 ["missing.pdf", "a.pdf"] "out.pdf").skipped = ["missing.pdf"] ∧
    (merge_pdfs append_c5 ["missing.pdf", "a.pdf"] "out.pdf").written = false := by
  exact ⟨rfl, rfl, rfl⟩

/-- C5 amended: if exactly one of the input files fails at append time
(FileNotFoundError or any other error) and every other file appends
successfully, merging is not aborted: the failing file is the only one warned
about and skipped, the remaining N−1 files are appended in their input order,
the returned merged count is N−1, and the output file is written provided the
successfully appended files contribute at least one page. -/
theorem merge_pdfs_skip_one (append : String → AppendOutcome)
    (pre post : List String) (bad output_file : String)
    (hbad : append bad = .notFound ∨ append bad = .err)
    (hgood : ∀ f ∈ pre ++ post, append_ok append f = true) :
    (merge_pdfs append (pre ++ bad :: post) output_file).merged_count
        = pre.length + post.length ∧
    (merge_pdfs append (pre ++ bad :: post) output_file).appended = pre ++ post ∧
    (merge_pdfs append (pre ++ bad :: post) output_file).skipped = [bad] ∧
    (((pre ++ post).map (file_pages append)).sum ≠ 0 →
      (merge_pdfs append (pre ++ bad :: post) output_file).written = true) := by
  have hok_bad : append_ok append bad = false := by
    unfold append_ok
    cases hbad with
    | inl h => rw [h]
    | inr h => rw [h]
  have hpage_bad : file_pages append bad = 0 := by
    unfold file_pages
    cases hbad with
    | inl h => rw [h]
    | inr h => rw [h]
  have hpre : pre.filter (append_ok append) = pre :=
    List.filter_eq_self.mpr fun a ha => hgood a (List.mem_append_left _ ha)
  have hpost : post.filter (append_ok append) = post :=
    List.filter_eq_self.mpr fun a ha => hgood a (List.mem_append_right _ ha)
  have hfilter : (pre ++ bad :: post).filter (append_ok append) = pre ++ post := by
    rw [List.filter_append, List.filter_cons, hok_bad, hpre, hpost]
    simp
  have hnpre : pre.filter (fun f => !(append_ok append f)) = [] :=
    List.filter_eq_nil_iff.mpr fun a ha => by
      simp [hgood a (List.mem_append_left _ ha)]
  have hnpost : post.filter (fun f => !(append_ok append f)) = [] :=
    List.filter_eq_nil_iff.mpr fun a ha => by
      simp [hgood a (List.mem_append_right _ ha)]
  have hnfilter : (pre ++ bad :: post).filter (fun f => !(append_ok append f)) = [bad] := by
    rw [List.filter_append, List.filter_cons, hnpre, hnpost]
    simp [hok_bad]
  have hsum : ((pre ++ bad :: post).map (file_pages append)).sum
      = ((pre ++ post).map (file_pages append)).sum := by
    simp [List.map_append, hpage_bad]
  refine ⟨?_, ?_, ?_, ?_⟩
  · rw [merge_pdfs_count_eq, hfilter, List.length_append]
  · rw [merge_pdfs_appended_eq, hfilter]
  · rw [merge_pdfs_skipped_eq, hnfilter]
  · intro hne
    rw [merge_pdfs_written_eq, merge_pdfs_pages_eq, hsum]
    exact bne_iff_ne.mpr hne

/-- Append environment for the C5 witness: missing.pdf raises
FileNotFoundError, every other file appends one page. -/
def append_w5 : String → AppendOutcome :=
  fun f => if f = "missing.pdf" then .notFound else .ok 1

/-- Witness for the amended C5 at three concrete files with the middle one
missing: the output file is written. -/
theorem merge_pdfs_skip_one_witness :
    (merge_pdfs append_w5 (["a.pdf"] ++ "missing.pdf" :: ["b.pdf"]) "out.pdf").written
      = true :=
  (merge_pdfs_skip_one append_w5 ["a.pdf"] ["b.pdf"] "missing.pdf" "out.pdf"
    (Or.inl rfl) (by decide)).2.2.2 (by decide)

/-! ## Input resolution of the merge command (src/pdf.py lines 173-183)

The merge command builds its candidate list from, in this order: the explicit
FILE arguments (each joined with --dir), else — when --from-list was supplied
— the stripped lines of the list-file that end with ".pdf", else the glob
expansion of --pattern under --dir.
-/

/-- POSIX os.path.join for the two-argument case: an absolute second argument
wins; otherwise the parts are joined, inserting a slash when dir does not end
with one. -/
def path_join (dir file : String) : String :=
  if py_startswith file "/" then file
  else if py_endswith dir "/" || (dir == "") then dir ++ file
  else dir ++ "/" ++ file

/-- Embeds the candidate-resolution block of the merge command.  files holds
the explicit FILE arguments; from_list is some lines exactly when --from-list
was supplied, holding the list-file's lines; glob_result is the expansion of
the glob pattern rooted at dir. -/
def resolve_inputs (files : List String) (dir : String)
    (from_list : Option (List String)) (glob_result : List String) : List String :=
  if files ≠ [] then files.map (path_join dir)
  else
    match from_list with
    | some lines =>
      (lines.filter (fun line => py_endswith (py_strip line) ".pdf")).map py_strip
    | none => glob_result

/-- Counterexample to C3: with no explicit files, a supplied list-file none of
whose lines ends in ".pdf", and a glob expansion that would yield a candidate,
the code takes the list-file branch and returns the empty list — it does not
fall through to the glob pattern. -/
theorem resolve_inputs_counterexample :
    resolve_inputs [] "." (some ["notes.txt"]) ["a.pdf"] = [] ∧
    resolve_inputs [] "." (some ["notes.txt"]) ["a.pdf"] ≠ ["a.pdf"] := by
  exact ⟨rfl, by decide⟩

/-- C3 amended: precedence is explicit files over list-file over glob, but
only the explicit-files mode is skipped by emptiness: the list-file branch is
taken whenever --from-list is supplied, even when it yields no ".pdf" line,
in which case the glob expansion is ignored and the empty candidate set is
returned (no fall-through). -/
theorem resolve_inputs_precedence (files : List String) (dir : String)
    (lines g g2 : List String) :
    (files ≠ [] → ∀ fl : Option (List String),
      resolve_inputs files dir fl g = files.map (path_join dir)) ∧
    (files = [] →
      resolve_inputs files dir (some lines) g
        = (lines.filter (fun line => py_endswith (py_strip line) ".pdf")).map py_strip) ∧
    (files = [] →
      resolve_inputs files dir (some lines) g
        = resolve_inputs files dir (some lines) g2) ∧
    resolve_inputs [] dir none g = g := by
  refine ⟨?_, ?_, ?_, rfl⟩
  · intro h fl
    simp [resolve_inputs, h]
  · intro h
    subst h
    rfl
  · intro h
    subst h
    rfl

/-- Witness for the amended C3: a supplied list-file with no ".pdf" line
yields the empty candidate set whatever the glob expansion would have been. -/
theorem resolve_inputs_precedence_witness :
    resolve_inputs [] "." (some ["notes.txt"]) ["g.pdf"]
      = resolve_inputs [] "." (some ["notes.txt"]) [] :=
  (resolve_inputs_precedence [] "." ["notes.txt"] ["g.pdf"] []).2.2.1 rfl

/-! ## Compressor: _compress_pdf and the compress command
(src/pdf.py lines 101-122 and 230-241)

PdfReader, compress_content_streams, and the output write are abstract
fallible operations; pages are abstract.  _compress_pdf catches nothing, and
the compress command computes the percentage reduction
(size_before - size_after) / size_before * 100 with no guard for
size_before = 0 (a Python ZeroDivisionError, modelled as a failure).
-/

/-- Environment for the compressor: read all pages of a file (PdfReader),
compress one page's content streams, write the output file, query a file's
byte size.  Any of the fallible operations may fail with a message. -/
structure CompressEnv (Page : Type) where
  read : String → Except String (List Page)
  compress_page : Page → Except String Page
  write : String → List Page → Except String Unit
  getsize : String → Nat

/-- Embeds _compress_pdf: read the input, compress every page in order, write
all pages to the output file, and return the output name and its size.  No
exception is caught: the first failure becomes the result. -/
def compress_pdf {Page : Type} (env : CompressEnv Page) (file output_file : String) :
    Except String (String × Nat) :=
  match env.read file with
  | .error e => .error e
  | .ok pages =>
    match pages.mapM env.compress_page with
    | .error e => .error e
    | .ok compressed =>
      match env.write output_file compressed with
      | .error e => .error e
      | .ok _ => .ok (output_file, env.getsize output_file)

/-- The percentage-reduction expression printed by the compress command:
(size_before - size_after) / size_before * 100, over exact rationals.  Python
raises ZeroDivisionError when size_before = 0 and the code has no guard, so
the computation is fallible: none on a zero-byte input. -/
def reduction_percent (size_before size_after : Nat) : Option ℚ :=
  if size_before = 0 then none
  else some (((size_before : ℚ) - (size_after : ℚ)) / (size_before : ℚ) * 100)

/-- Report printed by a successful compress command. -/
structure CompressReport where
  output_file : String
  size_before : Nat
  size_after : Nat
  percent : ℚ

/-- Embeds the compress command body: take the input's size, run
_compress_pdf, then print the before/after/percentage report.  A failure of
_compress_pdf, or the division fault of the unguarded percentage computation,
terminates the command with an error (non-zero exit). -/
def compress_command {Page : Type} (env : CompressEnv Page) (file output : String) :
    Except String CompressReport :=
  let size_before := env.getsize file
  match compress_pdf env file output with
  | .error e => .error e
  | .ok res =>
    match reduction_percent size_before res.2 with
    | none => .error "ZeroDivisionError"
    | some p =>
      .ok { output_file := res.1, size_before := size_before,
            size_after := res.2, percent := p }

theorem mapM_error_of_mem {α β : Type} (g : α → Except String β) :
    ∀ (l : List α) (acc : List β) (p : α) (e : String),
      p ∈ l → g p = .error e → ∃ e2, List.mapM.loop g l acc = .error e2
  | [], _, p, _, hp, _ => absurd hp (List.not_mem_nil p)
  | a :: as, acc, p, e, hp, hfail => by
    cases ha : g a with
    | error e1 =>
      exact ⟨e1, by simp [List.mapM.loop, ha, Bind.bind, Except.bind]⟩
    | ok b =>
      have hpas : p ∈ as := by
        cases List.mem_cons.mp hp with
        | inl h =>
          subst h
          rw [hfail] at ha
          simp at ha
        | inr h => exact h
      obtain ⟨e2, h2⟩ := mapM_error_of_mem g as (b :: acc) p e hpas hfail
      exact ⟨e2, by simp [List.mapM.loop, ha, Bind.bind, Except.bind, h2]⟩

/-- C8: the compressor performs no per-page error recovery: a failing read, a
failing compression of any page's content stream, and a failing write each
make _compress_pdf return an error, and the compress command then terminates
with that failure instead of producing a success report. -/
theorem compress_pdf_propagates {Page : Type} (env : CompressEnv Page) (f o : String) :
    (∀ e, env.read f = .error e → compress_pdf env f o = .error e) ∧
    (∀ pages p e, env.read f = .ok pages → p ∈ pages →
      env.compress_page p = .error e → ∃ e2, compress_pdf env f o = .error e2) ∧
    (∀ pages compressed e, env.read f = .ok pages →
      pages.mapM env.compress_page = .ok compressed →
      env.write o compressed = .error e → compress_pdf env f o = .error e) ∧
    (∀ e, compress_pdf env f o = .error e → compress_command env f o = .error e) := by
  refine ⟨?_, ?_, ?_, ?_⟩
  · intro e he
    simp [compress_pdf, he]
  · intro pages p e hread hp hfail
    obtain ⟨e2, h2⟩ := mapM_error_of_mem env.compress_page pages [] p e hp hfail
    refine ⟨e2, ?_⟩
    simp [compress_pdf, hread, List.mapM, h2]
  · intro pages compressed e hread hmap hwrite
    simp only [List.mapM] at hmap
    simp [compress_pdf, hread, List.mapM, hmap, hwrite]
  · intro e he
    simp [compress_command, he]

/-- Compressor environment whose second page fails to compress. -/
def env_page_fail : CompressEnv Bool :=
  { read := fun _ => .ok [true, false]
    compress_page := fun p => if p then .ok p else .error "bad page"
    write := fun _ _ => .ok ()
    getsize := fun _ => 7 }

/-- Witness for C8 at a concrete input: one page failing to compress makes
_compress_pdf fail. -/
theorem compress_pdf_propagates_witness :
    ∃ e2, compress_pdf env_page_fail "in.pdf" "out.pdf" = .error e2 :=
  (compress_pdf_propagates env_page_fail "in.pdf" "out.pdf").2.1 [true, false] false
    "bad page" rfl (by decide) rfl

/-- C1: in the compress command, after a successful compression the reported
percentage equals (size_before - size_after) / size_before * 100 over exact
rationals, and for every existing input file — including a zero-byte one — no
division fault occurs.  The hypothesis records PyPDF2's behaviour at the one
input that could fault: PdfReader raises EmptyFileError on an empty file
("Cannot read an empty file"), so a file whose size is 0 can never be read
successfully.  Consequently the unguarded division is only reached with a
non-zero size_before: whenever _compress_pdf succeeds the command reports the
formula, and on a zero-byte input the command terminates with the reader's
error, never with a division fault. -/
theorem compress_no_division_fault {Page : Type} (env : CompressEnv Page)
    (file output : String)
    (hempty : env.getsize file = 0 → ∀ pages, env.read file ≠ .ok pages) :
    (∀ res, compress_pdf env file output = .ok res →
      env.getsize file ≠ 0 ∧
      compress_command env file output = .ok
        { output_file := res.1
          size_before := env.getsize file
          size_after := res.2
          percent := ((env.getsize file : ℚ) - (res.2 : ℚ))
            / (env.getsize file : ℚ) * 100 }) ∧
    (env.getsize file = 0 →
      ∃ e, compress_pdf env file output = .error e ∧
        compress_command env file output = .error e) := by
  constructor
  · intro res hok
    have hsize : env.getsize file ≠ 0 := by
      intro h0
      cases hread : env.read file with
      | error e => simp [compress_pdf, hread] at hok
      | ok pages => exact hempty h0 pages hread
    refine ⟨hsize, ?_⟩
    simp [compress_command, hok, reduction_percent, hsize]
  · intro h0
    cases hread : env.read file with
    | ok pages => exact absurd hread (hempty h0 pages)
    | error e =>
      refine ⟨e, ?_, ?_⟩
      · simp [compress_pdf, hread]
      · simp [compress_command, compress_pdf, hread]

/-- Compressor environment of an existing zero-byte input file: its size is 0
and PdfReader refuses to read it (PyPDF2's EmptyFileError). -/
def env_empty : CompressEnv Unit :=
  { read := fun _ => .error "EmptyFileError: Cannot read an empty file"
    compress_page := fun p => .ok p
    write := fun _ _ => .ok ()
    getsize := fun _ => 0 }

/-- Witness for C1 at a concrete zero-byte input: the command terminates with
the reader's error — no division fault occurs. -/
theorem compress_no_division_fault_witness :
    ∃ e, compress_pdf env_empty "empty.pdf" "out.pdf" = .error e ∧
      compress_command env_empty "empty.pdf" "out.pdf" = .error e :=
  (compress_no_division_fault env_empty "empty.pdf" "out.pdf"
    (fun _ _ h => Except.noConfusion h)).2 rfl

end Pdf
